import Mathlib

/-!
Verification of `family_trash_bot_postgres.py`, a Telegram bot that tracks
per-family trash take-out counters in two PostgreSQL tables (`families`,
`members`).  The store is embedded as lists of rows, each SQL statement as a
pure function on that state, and the two update handlers (`callback_router`
for button presses and `text_flow` for free-text replies) as functions on
the store together with the per-user conversation state (`context.user_data`).
Machine words inside SHA-256 are `Nat` reduced modulo `2 ^ 32`.
-/

namespace TrashBot

/-! ## SHA-256 (hashlib.sha256, used by `hash_password`) -/

/-- Reduce a natural number to a 32-bit word. -/
def w32 (n : Nat) : Nat := n % 4294967296

/-- Right rotation of a 32-bit word. -/
def rotr32 (x n : Nat) : Nat := w32 ((x >>> n) ||| (x <<< (32 - n)))

/-- SHA-256 choice function; `x ^^^ 4294967295` is 32-bit complement. -/
def shaCh (e f g : Nat) : Nat := (e &&& f) ^^^ ((e ^^^ 4294967295) &&& g)

/-- SHA-256 majority function. -/
def shaMaj (a b c : Nat) : Nat := (a &&& b) ^^^ (a &&& c) ^^^ (b &&& c)

/-- Upper-case sigma 0 of SHA-256 (rotations by 2, 13, 22). -/
def sumA (x : Nat) : Nat := (rotr32 x 2 ^^^ rotr32 x 13) ^^^ rotr32 x 22

/-- Upper-case sigma 1 of SHA-256 (rotations by 6, 11, 25). -/
def sumE (x : Nat) : Nat := (rotr32 x 6 ^^^ rotr32 x 11) ^^^ rotr32 x 25

/-- Lower-case sigma 0 of SHA-256 (rotations by 7, 18, shift by 3). -/
def sigW0 (x : Nat) : Nat := (rotr32 x 7 ^^^ rotr32 x 18) ^^^ (x >>> 3)

/-- Lower-case sigma 1 of SHA-256 (rotations by 17, 19, shift by 10). -/
def sigW1 (x : Nat) : Nat := (rotr32 x 17 ^^^ rotr32 x 19) ^^^ (x >>> 10)

/-- The 64 SHA-256 round constants, written in decimal. -/
def K256 : List Nat :=
  [1116352408, 1899447441, 3049323471, 3921009573, 961987163,
   1508970993, 2453635748, 2870763221, 3624381080, 310598401,
   607225278, 1426881987, 1925078388, 2162078206, 2614888103,
   3248222580, 3835390401, 4022224774, 264347078, 604807628,
   770255983, 1249150122, 1555081692, 1996064986, 2554220882,
   2821834349, 2952996808, 3210313671, 3336571891, 3584528711,
   113926993, 338241895, 666307205, 773529912, 1294757372,
   1396182291, 1695183700, 1986661051, 2177026350, 2456956037,
   2730485921, 2820302411, 3259730800, 3345764771, 3516065817,
   3600352804, 4094571909, 275423344, 430227734, 506948616,
   659060556, 883997877, 958139571, 1322822218, 1537002063,
   1747873779, 1955562222, 2024104815, 2227730452, 2361852424,
   2428436474, 2756734187, 3204031479, 3329325298]

/-- The eight SHA-256 initial hash words, written in decimal. -/
def shaH0 : List Nat :=
  [1779033703, 3144134277, 1013904242, 2773480762,
   1359893119, 2600822924, 528734635, 1541459225]

/-- Working state of the SHA-256 compression loop (eight 32-bit words). -/
structure Sha8 where
  a : Nat
  b : Nat
  c : Nat
  d : Nat
  e : Nat
  f : Nat
  g : Nat
  hh : Nat
deriving Repr, DecidableEq

/-- One SHA-256 compression round; `kw` is the pair (round constant, schedule word). -/
def sha_round (st : Sha8) (kw : Nat × Nat) : Sha8 :=
  let t1 := w32 (st.hh + sumE st.e + shaCh st.e st.f st.g + kw.1 + kw.2)
  let t2 := w32 (sumA st.a + shaMaj st.a st.b st.c)
  ⟨w32 (t1 + t2), st.a, st.b, st.c, w32 (st.d + t1), st.e, st.f, st.g⟩

/-- Extend a 16-word block to the 64-word message schedule. -/
def sha_extend (ws : Array Nat) : Array Nat :=
  (List.range 48).foldl (fun arr j =>
    let i := j + 16
    arr.push (w32 (arr.getD (i - 16) 0 + sigW0 (arr.getD (i - 15) 0) +
                   arr.getD (i - 7) 0 + sigW1 (arr.getD (i - 2) 0)))) ws

/-- Compress one 16-word block into the running 8-word hash value. -/
def sha_compress (hs : List Nat) (block : List Nat) : List Nat :=
  match hs with
  | [h0, h1, h2, h3, h4, h5, h6, h7] =>
    let ws := sha_extend block.toArray
    let st := (K256.zip ws.toList).foldl sha_round ⟨h0, h1, h2, h3, h4, h5, h6, h7⟩
    [w32 (h0 + st.a), w32 (h1 + st.b), w32 (h2 + st.c), w32 (h3 + st.d),
     w32 (h4 + st.e), w32 (h5 + st.f), w32 (h6 + st.g), w32 (h7 + st.hh)]
  | _ => hs

/-- Fold the compression function over a padded message, 16 words at a time. -/
def sha_blocks (hs : List Nat) : List Nat → List Nat
  | w0 :: w1 :: w2 :: w3 :: w4 :: w5 :: w6 :: w7 ::
    w8 :: w9 :: w10 :: w11 :: w12 :: w13 :: w14 :: w15 :: rest =>
      sha_blocks (sha_compress hs
        [w0, w1, w2, w3, w4, w5, w6, w7, w8, w9, w10, w11, w12, w13, w14, w15]) rest
  | _ => hs

/-- UTF-8 encoding of one unicode scalar value, as a list of byte values. -/
def utf8Bytes (c : Char) : List Nat :=
  let n := c.toNat
  if n < 128 then [n]
  else if n < 2048 then [192 ||| (n >>> 6), 128 ||| (n &&& 63)]
  else if n < 65536 then
    [224 ||| (n >>> 12), 128 ||| ((n >>> 6) &&& 63), 128 ||| (n &&& 63)]
  else
    [240 ||| (n >>> 18), 128 ||| ((n >>> 12) &&& 63),
     128 ||| ((n >>> 6) &&& 63), 128 ||| (n &&& 63)]

/-- Big-endian 8-byte encoding of a 64-bit length. -/
def be64 (n : Nat) : List Nat :=
  [(n >>> 56) &&& 255, (n >>> 48) &&& 255, (n >>> 40) &&& 255, (n >>> 32) &&& 255,
   (n >>> 24) &&& 255, (n >>> 16) &&& 255, (n >>> 8) &&& 255, n &&& 255]

/-- SHA-256 padding: append 0x80, zeros to 56 mod 64, then the bit length. -/
def sha_pad (msg : List Nat) : List Nat :=
  let L := msg.length
  msg ++ [128] ++ List.replicate ((120 - ((L + 1) % 64)) % 64) 0 ++ be64 (8 * L)

/-- Group a byte list into big-endian 32-bit words. -/
def bytesToWords : List Nat → List Nat
  | b0 :: b1 :: b2 :: b3 :: rest =>
      (((b0 * 256 + b1) * 256 + b2) * 256 + b3) :: bytesToWords rest
  | _ => []

/-- Lower-case hex digit for a value below 16. -/
def hexDigit (n : Nat) : Char :=
  if n < 10 then Char.ofNat (48 + n) else Char.ofNat (87 + n)

/-- Eight-hex-digit rendering of a 32-bit word. -/
def hex8 (n : Nat) : String :=
  String.mk ((List.range 8).map (fun i => hexDigit ((n >>> ((7 - i) * 4)) &&& 15)))

/-- `hashlib.sha256(s.encode("utf-8")).hexdigest()`. -/
def sha256hex (s : String) : String :=
  String.join ((sha_blocks shaH0 (bytesToWords (sha_pad ((s.data.map utf8Bytes).flatten)))).map hex8)

/-! ## Data model

The two tables created by `init_db`.  `SERIAL` surrogate keys are modelled by
the counters `next_family_id` / `next_member_id`; rows are kept in insertion
order, which is all the code ever relies on (every query that needs an order
states an explicit `ORDER BY`, embedded below where it matters). -/

/-- A row of the `families` table: `id SERIAL PRIMARY KEY, name TEXT UNIQUE
NOT NULL, password_hash TEXT` (nullable). -/
structure FamilyRow where
  id : Int
  name : String
  password_hash : Option String
deriving Repr, DecidableEq

/-- A row of the `members` table: surrogate `id`, `family_id` (cascade-delete
foreign key), `telegram_id BIGINT`, nullable `username`, `count` defaulting
to 0, `is_admin` defaulting to false, with `UNIQUE(family_id, telegram_id)`. -/
structure MemberRow where
  id : Int
  family_id : Int
  telegram_id : Int
  username : Option String
  count : Int
  is_admin : Bool
deriving Repr, DecidableEq

/-- The whole store. -/
structure DB where
  families : List FamilyRow
  members : List MemberRow
  next_family_id : Int
  next_member_id : Int
deriving Repr, DecidableEq

/-- The store right after `init_db` on a fresh database (`SERIAL` starts at 1). -/
def initDB : DB := ⟨[], [], 1, 1⟩

/-- Python truthiness of an optional string (`None` and `""` are falsy). -/
def py_truthy : Option String → Bool
  | none => false
  | some s => !(s == "")

/-- `hash_password`: `None` stays `None`, otherwise the SHA-256 hex digest of
`"salt_v1_" + pw`. -/
def hash_password : Option String → Option String
  | none => none
  | some pw => some (sha256hex ("salt_v1_" ++ pw))

/-! ## Family Registry (the DB operation layer) -/

/-- `SELECT * FROM families WHERE name=$1` (first match; `name` is unique). -/
def get_family_by_name (db : DB) (name : String) : Option FamilyRow :=
  db.families.find? (fun f => f.name == name)

/-- `create_family`: inserts the family row (`RETURNING id`) and then the
creator as a member with `is_admin = TRUE`.  Either insert can fail with a
unique-constraint violation; an error result carries the store as left at the
moment the exception is raised (the statements are not wrapped in an explicit
transaction, so whatever was already written stays). -/
def create_family (db : DB) (name : String) (pw : Option String)
    (creator_tid : Int) (creator_username : String) : Except (String × DB) (DB × Int) :=
  let ph := if py_truthy pw then hash_password pw else none
  if db.families.any (fun f => f.name == name) then
    Except.error ("duplicate key value violates unique constraint families.name", db)
  else
    let fid := db.next_family_id
    let db1 : DB := { db with families := db.families ++ [⟨fid, name, ph⟩],
                              next_family_id := fid + 1 }
    if db1.members.any (fun m => m.family_id == fid && m.telegram_id == creator_tid) then
      Except.error ("duplicate key value violates unique constraint members", db1)
    else
      Except.ok ({ db1 with
        members := db1.members ++ [⟨db.next_member_id, fid, creator_tid,
                                    some creator_username, 0, true⟩],
        next_member_id := db.next_member_id + 1 }, fid)

/-- The bad-password test of `join_family`:
`fam["password_hash"] and fam["password_hash"] != hash_password(pw)`. -/
def bad_password (fam : FamilyRow) (pw : Option String) : Bool :=
  py_truthy fam.password_hash && !(fam.password_hash == hash_password pw)

/-- Number of membership rows for a given `(family_id, telegram_id)` pair. -/
def countMembership (db : DB) (fid tid : Int) : Nat :=
  (db.members.filter (fun m => m.family_id == fid && m.telegram_id == tid)).length

/-- `join_family`: `NotFound` when no family has the name, `BadPassword` on a
hash mismatch against a truthy stored hash, otherwise an insert with
`ON CONFLICT (family_id, telegram_id) DO NOTHING` and a success result. -/
def join_family (db : DB) (name : String) (pw : Option String)
    (tid : Int) (username : String) : DB × Bool × String :=
  match get_family_by_name db name with
  | none => (db, false, "Семья не найдена")
  | some fam =>
    if bad_password fam pw then (db, false, "Неверный пароль")
    else
      (if db.members.any (fun m => m.family_id == fam.id && m.telegram_id == tid) then db
       else { db with
         members := db.members ++ [⟨db.next_member_id, fam.id, tid, some username, 0, false⟩],
         next_member_id := db.next_member_id + 1 },
       true, "Вы успешно присоединились к семье!")

/-- `SELECT f.* FROM families f JOIN members m ON m.family_id = f.id WHERE
m.telegram_id = $1` with `fetchrow`: the first membership row of the user (in
insertion order), joined to its family. -/
def get_member_family (db : DB) (tid : Int) : Option FamilyRow :=
  match db.members.find? (fun m => m.telegram_id == tid) with
  | none => none
  | some m => db.families.find? (fun f => f.id == m.family_id)

/-- `add_trash`: `UPDATE members SET count = count + 1 WHERE telegram_id = $1`
— unscoped by family, so every membership row of the user is incremented. -/
def add_trash (db : DB) (tid : Int) : DB :=
  { db with members := db.members.map (fun m =>
      if m.telegram_id == tid then { m with count := m.count + 1 } else m) }

/-- Comparator for `ORDER BY count DESC, username` (SQL `ASC` puts NULLs last). -/
def stats_le (a b : MemberRow) : Bool :=
  b.count < a.count ||
    (a.count == b.count &&
      match a.username, b.username with
      | none, none => true
      | none, some _ => false
      | some _, none => true
      | some x, some y => x ≤ y)

/-- `get_family_stats`: the family's rows sorted by count descending,
username ascending. -/
def get_family_stats (db : DB) (family_id : Int) : List MemberRow :=
  (db.members.filter (fun m => m.family_id == family_id)).mergeSort stats_le

/-- Pick the row that comes first under `ORDER BY count ASC, id ASC`. -/
def least2 (a b : MemberRow) : MemberRow :=
  if b.count < a.count ∨ (b.count = a.count ∧ b.id < a.id) then b else a

/-- `get_least_member`: `SELECT ... WHERE family_id=$1 ORDER BY count ASC,
id ASC LIMIT 1`. -/
def get_least_member (db : DB) (family_id : Int) : Option MemberRow :=
  match db.members.filter (fun m => m.family_id == family_id) with
  | [] => none
  | x :: xs => some (xs.foldl least2 x)

/-- `is_member_admin`: the `is_admin` flag of the membership row, false when
there is no such row. -/
def is_member_admin (db : DB) (family_id tid : Int) : Bool :=
  match db.members.find? (fun m => m.family_id == family_id && m.telegram_id == tid) with
  | none => false
  | some m => m.is_admin

/-- `get_members`: the family's rows ordered by username. -/
def get_members (db : DB) (family_id : Int) : List MemberRow :=
  (db.members.filter (fun m => m.family_id == family_id)).mergeSort
    (fun a b => match a.username, b.username with
      | none, none => true
      | none, some _ => false
      | some _, none => true
      | some x, some y => x ≤ y)

/-- `set_member_count`: `UPDATE members SET count=$1 WHERE family_id=$2 AND
telegram_id=$3`. -/
def set_member_count (db : DB) (member_telegram_id family_id new_count : Int) : DB :=
  { db with members := db.members.map (fun m =>
      if m.family_id == family_id && m.telegram_id == member_telegram_id then
        { m with count := new_count } else m) }

/-- `remove_member`: `DELETE FROM members WHERE family_id=$1 AND telegram_id=$2`. -/
def remove_member (db : DB) (member_telegram_id family_id : Int) : DB :=
  { db with members := db.members.filter (fun m =>
      !(m.family_id == family_id && m.telegram_id == member_telegram_id)) }

/-- The inline admin ±1 adjustment of the router: `UPDATE members SET count =
GREATEST(0, count + $1) WHERE family_id=$2 AND telegram_id=$3`. -/
def admin_adjust (db : DB) (family_id tid delta : Int) : DB :=
  { db with members := db.members.map (fun m =>
      if m.family_id == family_id && m.telegram_id == tid then
        { m with count := max 0 (m.count + delta) } else m) }

/-- The inline admin toggle of the router: if a matching row exists,
`UPDATE members SET is_admin = NOT is_admin` on the matching rows. -/
def toggle_admin (db : DB) (family_id tid : Int) : DB :=
  if db.members.any (fun m => m.family_id == family_id && m.telegram_id == tid) then
    { db with members := db.members.map (fun m =>
        if m.family_id == family_id && m.telegram_id == tid then
          { m with is_admin := !m.is_admin } else m) }
  else db

/-- `reset_counts`: `UPDATE members SET count=0 WHERE family_id=$1`. -/
def reset_counts (db : DB) (family_id : Int) : DB :=
  { db with members := db.members.map (fun m =>
      if m.family_id == family_id then { m with count := 0 } else m) }

/-- `delete_family`: `DELETE FROM families WHERE id=$1`; the
`ON DELETE CASCADE` on `members.family_id` removes the member rows too. -/
def delete_family (db : DB) (family_id : Int) : DB :=
  { db with families := db.families.filter (fun f => !(f.id == family_id)),
            members := db.members.filter (fun m => !(m.family_id == family_id)) }

/-- Schema invariant used where a fresh `SERIAL` id must be fresh: every
member row points below the family id counter. -/
def wf_db (db : DB) : Bool :=
  db.members.all (fun m => m.family_id < db.next_family_id)

/-- All counters are non-negative. -/
def nonneg_db (db : DB) : Bool :=
  db.members.all (fun m => 0 ≤ m.count)

/-! ## Conversation state and handlers -/

/-- The per-user `context.user_data` dictionary: the `flow` tag and the
scratch fields the flows use.  An absent key is `none`. -/
structure UserData where
  flow : Option String := none
  new_family_name : Option String := none
  join_family_name : Option String := none
  admin_set_fid : Option Int := none
  admin_set_target : Option Int := none
  admin_delete_fid : Option Int := none
deriving Repr, DecidableEq

/-- `context.user_data.clear()`. -/
def emptyUD : UserData := {}

/-- Outcome of one handler invocation: the store and user state as left
behind, the texts replied to the chat, and whether the handler ended in an
uncaught exception (swallowed by the bot framework, state kept as-is). -/
structure HandlerResult where
  db : DB
  user_data : UserData
  replies : List String
  raised : Bool
deriving Repr, DecidableEq

/-- Result of a handler that raised an uncaught exception. -/
def raisedResult (db : DB) (ud : UserData) : HandlerResult :=
  ⟨db, ud, [], true⟩

/-- Python `str.strip()`: drop leading and trailing whitespace (the exotic
unicode whitespace Python also strips never occurs in the bot's inputs of
interest). -/
def py_strip (s : String) : String :=
  String.mk (((s.data.dropWhile Char.isWhitespace).reverse.dropWhile Char.isWhitespace).reverse)

/-- Whether the first list is a prefix of the second, as a boolean. -/
def charsPrefix : List Char → List Char → Bool
  | [], _ => true
  | _ :: _, [] => false
  | p :: ps, c :: cs => p == c && charsPrefix ps cs

/-- Python `s.startswith(pre)`. -/
def py_startswith (s pre : String) : Bool := charsPrefix pre.data s.data

/-- Python `s.endswith(post)`. -/
def py_endswith (s post : String) : Bool :=
  charsPrefix post.data.reverse s.data.reverse

/-- Split a character list at every `'|'`. -/
def splitPipe : List Char → List (List Char)
  | [] => [[]]
  | c :: cs =>
      if c == '|' then [] :: splitPipe cs
      else
        match splitPipe cs with
        | [] => [[c]]
        | g :: gs => (c :: g) :: gs

/-- Python `s.split("|")` (unbounded). -/
def py_split_all (s : String) : List String := (splitPipe s.data).map String.mk

/-- Rejoin fields with `"|"`, undoing a split for the unbounded tail. -/
def joinPipe : List String → String
  | [] => ""
  | [s] => s
  | s :: rest => s ++ "|" ++ joinPipe rest

/-- Python `s.split("|", 1)`. -/
def py_split1 (s : String) : List String :=
  match py_split_all s with
  | [] => []
  | [a] => [a]
  | a :: rest => [a, joinPipe rest]

/-- Python `s.split("|", 2)`. -/
def py_split2 (s : String) : List String :=
  match py_split_all s with
  | [] => []
  | [a] => [a]
  | [a, b] => [a, b]
  | a :: b :: rest => [a, b, joinPipe rest]

/-- Decimal value of a digit run, `none` on any non-digit. -/
def allDigitsVal : List Char → Nat → Option Nat
  | [], acc => some acc
  | c :: cs, acc =>
      if c.isDigit then allDigitsVal cs (10 * acc + (c.toNat - 48)) else none

/-- Python `int(s)` on an already-stripped token (canonical decimal strings
with an optional leading minus; the exotic forms Python also accepts, such
as a leading `+` or underscores, never occur in the bot's generated
tokens). -/
def pyInt? (s : String) : Option Int :=
  match s.data with
  | [] => none
  | '-' :: rest =>
      match rest with
      | [] => none
      | _ => (allDigitsVal rest 0).map (fun n => -(n : Int))
  | ds => (allDigitsVal ds 0).map (fun n => (n : Int))

/-- The action selected by the `callback_router` if-chain, with its still
unparsed string arguments.  `malformed` is a `ValueError` raised while tuple
unpacking the split (wrong number of fields), before any state change. -/
inductive CbAction where
  | createFamilyBtn
  | joinFamilyBtn
  | trashOut
  | statsBtn
  | adminOpen (fidS : String)
  | adminList (fidS : String)
  | adminMember (fidS tidS : String)
  | adminIncDec (op fidS tidS : String)
  | adminSet (fidS tidS : String)
  | adminRemove (fidS tidS : String)
  | adminToggle (fidS tidS : String)
  | adminReset (fidS : String)
  | adminDelete (fidS : String)
  | backMain
  | unknownOp
  | malformed
deriving Repr, DecidableEq

/-- The guard chain of `callback_router`, in source order, together with the
per-branch `data.split("|", ...)` unpacking. -/
def parse_cb (data : String) : CbAction :=
  if data == "create_family" then .createFamilyBtn
  else if data == "join_family" then .joinFamilyBtn
  else if py_startswith data "trash_out" then .trashOut
  else if py_startswith data "stats" then .statsBtn
  else if py_startswith data "admin|" then
    match py_split1 data with
    | [_, fidS] => .adminOpen fidS
    | _ => .malformed
  else if py_startswith data "admin_list|" then
    match py_split1 data with
    | [_, fidS] => .adminList fidS
    | _ => .malformed
  else if py_startswith data "admin_member|" then
    match py_split2 data with
    | [_, fidS, tidS] => .adminMember fidS tidS
    | _ => .malformed
  else if py_startswith data "admin_inc|" || py_startswith data "admin_dec|" then
    match py_split2 data with
    | [op, fidS, tidS] => .adminIncDec op fidS tidS
    | _ => .malformed
  else if py_startswith data "admin_set|" then
    match py_split2 data with
    | [_, fidS, tidS] => .adminSet fidS tidS
    | _ => .malformed
  else if py_startswith data "admin_remove|" then
    match py_split2 data with
    | [_, fidS, tidS] => .adminRemove fidS tidS
    | _ => .malformed
  else if py_startswith data "admin_toggle_admin|" then
    match py_split2 data with
    | [_, fidS, tidS] => .adminToggle fidS tidS
    | _ => .malformed
  else if py_startswith data "admin_reset|" then
    match py_split1 data with
    | [_, fidS] => .adminReset fidS
    | _ => .malformed
  else if py_startswith data "admin_delete|" then
    match py_split1 data with
    | [_, fidS] => .adminDelete fidS
    | _ => .malformed
  else if data == "back_main" then .backMain
  else .unknownOp

/-- Render one stats line `f"{r['username']}: {r['count']}"` (Python prints a
missing username as `None`). -/
def stats_line (m : MemberRow) : String :=
  (match m.username with | some u => u | none => "None") ++ ": " ++ toString m.count

/-- The body of each `callback_router` branch.  The delivery of the
least-contributor notification after `trash_out` has no effect on the store
and is outside the replies to the acting chat, so it is not represented. -/
def cb_dispatch (db : DB) (ud : UserData) (uid : Int) : CbAction → HandlerResult
  | .createFamilyBtn =>
      ⟨db, { ud with flow := some "create_name" }, ["Введите название семьи:"], false⟩
  | .joinFamilyBtn =>
      ⟨db, { ud with flow := some "join_name" }, ["Введите название семьи:"], false⟩
  | .trashOut =>
      match get_member_family db uid with
      | none => ⟨db, ud, ["Вы не в семье."], false⟩
      | some _ => ⟨add_trash db uid, ud, ["✅ Мусор отмечен."], false⟩
  | .statsBtn =>
      match get_member_family db uid with
      | none => ⟨db, ud, ["Вы не в семье."], false⟩
      | some fam =>
          ⟨db, ud, ["📊 Статистика семьи:\n" ++
            String.intercalate "\n" ((get_family_stats db fam.id).map stats_line)], false⟩
  | .adminOpen fidS =>
      match pyInt? fidS with
      | none => raisedResult db ud
      | some fid =>
        match get_member_family db uid with
        | none => ⟨db, ud, ["Нет доступа к админ-панели."], false⟩
        | some fam =>
          if !(fam.id == fid) then ⟨db, ud, ["Нет доступа к админ-панели."], false⟩
          else if !(is_member_admin db fid uid) then
            ⟨db, ud, ["Только админ может открыть панель."], false⟩
          else ⟨db, ud, ["Админ-панель:"], false⟩
  | .adminList fidS =>
      match pyInt? fidS with
      | none => raisedResult db ud
      | some _ => ⟨db, ud, ["Участники:"], false⟩
  | .adminMember fidS tidS =>
      match pyInt? fidS with
      | none => raisedResult db ud
      | some _ =>
        match pyInt? tidS with
        | none => raisedResult db ud
        | some _ => ⟨db, ud, ["Действия с участником:"], false⟩
  | .adminIncDec op fidS tidS =>
      match pyInt? fidS with
      | none => raisedResult db ud
      | some fid =>
        match pyInt? tidS with
        | none => raisedResult db ud
        | some tid =>
          let delta : Int := if py_endswith op "inc" then 1 else -1
          ⟨admin_adjust db fid tid delta, ud, ["Изменено."], false⟩
  | .adminSet fidS tidS =>
      let ud1 := { ud with flow := some "admin_set_count" }
      match pyInt? fidS with
      | none => raisedResult db ud1
      | some fid =>
        let ud2 := { ud1 with admin_set_fid := some fid }
        match pyInt? tidS with
        | none => raisedResult db ud2
        | some tid =>
          ⟨db, { ud2 with admin_set_target := some tid },
            ["Введите новое целое число (>=0):"], false⟩
  | .adminRemove fidS tidS =>
      match pyInt? fidS with
      | none => raisedResult db ud
      | some fid =>
        match pyInt? tidS with
        | none => raisedResult db ud
        | some tid => ⟨remove_member db tid fid, ud, ["Участник удалён."], false⟩
  | .adminToggle fidS tidS =>
      match pyInt? fidS with
      | none => raisedResult db ud
      | some fid =>
        match pyInt? tidS with
        | none => raisedResult db ud
        | some tid => ⟨toggle_admin db fid tid, ud, ["Права изменены."], false⟩
  | .adminReset fidS =>
      match pyInt? fidS with
      | none => raisedResult db ud
      | some fid => ⟨reset_counts db fid, ud, ["Счёты сброшены."], false⟩
  | .adminDelete fidS =>
      match pyInt? fidS with
      | none => raisedResult db ud
      | some fid =>
          ⟨db, { ud with flow := some "admin_confirm_delete", admin_delete_fid := some fid },
            ["Введите DELETE чтобы подтвердить удаление семьи:"], false⟩
  | .backMain => ⟨db, ud, ["Главное меню:"], false⟩
  | .unknownOp => ⟨db, ud, ["Неизвестная операция."], false⟩
  | .malformed => raisedResult db ud

/-- The button-press handler. -/
def callback_router (db : DB) (ud : UserData) (uid : Int) (data : String) : HandlerResult :=
  cb_dispatch db ud uid (parse_cb data)

/-- The free-text handler `text_flow`: dispatch on the current `flow` tag
over the stripped message text (`text = (msg.text or "").strip()` is
`(py_strip raw)` here, inlined at each use). -/
def text_flow (db : DB) (ud : UserData) (uid : Int) (uname : String) (raw : String) :
    HandlerResult :=
  if ud.flow == some "create_name" then
    ⟨db, { ud with new_family_name := some (py_strip raw), flow := some "create_pass" },
      ["Введите пароль для семьи (можно оставить пустым):"], false⟩
  else if ud.flow == some "create_pass" then
    match ud.new_family_name with
    | none =>
        -- name missing from user_data: the INSERT violates NOT NULL on
        -- families.name, is caught, reported, and the state is cleared
        ⟨db, emptyUD, ["Ошибка"], false⟩
    | some nm =>
      match create_family db nm (if (py_strip raw) == "" then none else some (py_strip raw)) uid uname with
      | .error (_, dbe) => ⟨dbe, emptyUD, ["Ошибка"], false⟩
      | .ok (db', _) =>
          ⟨db', emptyUD, ["Семья '" ++ nm ++ "' создана. Вы админ."], false⟩
  else if ud.flow == some "join_name" then
    ⟨db, { ud with join_family_name := some (py_strip raw), flow := some "join_pass" },
      ["Введите пароль семьи (если есть) или оставьте пустым:"], false⟩
  else if ud.flow == some "join_pass" then
    match ud.join_family_name with
    | none =>
        -- name missing: `WHERE name=NULL` matches nothing, reported NotFound
        ⟨db, emptyUD, ["Семья не найдена"], false⟩
    | some nm =>
      ⟨(join_family db nm (some (py_strip raw)) uid uname).1, emptyUD,
        [(join_family db nm (some (py_strip raw)) uid uname).2.2], false⟩
  else if ud.flow == some "admin_set_count" then
    match pyInt? (py_strip raw) with
    | none => ⟨db, ud, ["Неверное число. Введите целое >=0 или /cancel."], false⟩
    | some v =>
      if v < 0 then ⟨db, ud, ["Неверное число. Введите целое >=0 или /cancel."], false⟩
      else
        ⟨(match ud.admin_set_fid, ud.admin_set_target with
          | some fid, some tgt => set_member_count db tgt fid v
          | _, _ => db),   -- a NULL key in the UPDATE matches no row
         { ud with admin_set_fid := none, admin_set_target := none, flow := none },
         ["Значение установлено."], false⟩
  else if ud.flow == some "admin_confirm_delete" then
    ⟨(if (py_strip raw) == "DELETE" then
        match ud.admin_delete_fid with
        | some fid => delete_family db fid
        | none => db   -- `DELETE ... WHERE id=NULL` matches nothing
      else db),
     { ud with admin_delete_fid := none, flow := none },
     [if (py_strip raw) == "DELETE" then "Семья удалена." else "Подтверждение не пройдено."],
     false⟩
  else
    ⟨db, ud, ["Нераспознанный ввод. Вернись в меню."], false⟩

/-- One inbound update: a button press or a free-text message. -/
inductive Event where
  | cb (data : String)
  | msg (text : String)
deriving Repr, DecidableEq

/-- Process one inbound update for a user with the given id, display name,
and conversation state. -/
def handle (db : DB) (ud : UserData) (uid : Int) (uname : String) : Event → HandlerResult
  | .cb data => callback_router db ud uid data
  | .msg raw => text_flow db ud uid uname raw

/-- Stores reachable from a fresh database by any sequence of updates, from
any users, whatever their conversation states. -/
inductive Reachable : DB → Prop where
  | init : Reachable initDB
  | step (db : DB) (ud : UserData) (uid : Int) (uname : String) (ev : Event) :
      Reachable db → Reachable (handle db ud uid uname ev).db

/-- The admin sub-action tokens dispatched without re-checking the caller's
admin status (everything behind the panel, as opposed to opening it). -/
def is_admin_sub : CbAction → Bool
  | .adminList _ => true
  | .adminMember _ _ => true
  | .adminIncDec _ _ _ => true
  | .adminSet _ _ => true
  | .adminRemove _ _ => true
  | .adminToggle _ _ => true
  | .adminReset _ => true
  | .adminDelete _ => true
  | _ => false

/-- Concrete store used by the witnesses: family 1 "Smiths" (creator 5, an
admin at count 5) with extra members 6, 7, 8 at counts 2, 2, 8, and an open
family 2 "Open" whose sole member is 9. -/
def exampleDB : DB :=
  { families := [⟨1, "Smiths", some (sha256hex "salt_v1_x")⟩, ⟨2, "Open", none⟩],
    members :=
      [⟨1, 1, 5, some "a", 5, true⟩, ⟨2, 1, 6, some "b", 2, false⟩,
       ⟨3, 1, 7, some "c", 2, false⟩, ⟨4, 1, 8, some "d", 8, false⟩,
       ⟨5, 2, 9, some "e", 0, true⟩],
    next_family_id := 3,
    next_member_id := 6 }

/-! ## Theorems -/

theorem forall₂_map_self {α β : Type} (f : α → β) (r : α → β → Prop) (l : List α)
    (h : ∀ a ∈ l, r a (f a)) : List.Forall₂ r l (l.map f) := by
  induction l with
  | nil => exact List.Forall₂.nil
  | cons x xs ih =>
      exact List.Forall₂.cons (h x (List.mem_cons_self x xs))
        (ih (fun a ha => h a (List.mem_cons_of_mem x ha)))

/-- C2: `recordTrashOut` leaves the family table alone and rewrites the
member table row by row: every membership row of the acting user — in every
family — has its count bumped by exactly one (so it strictly grows and stays
non-negative), and every other row is untouched. -/
theorem c2_record_trash_out_increments_every_membership (db : DB) (tid : Int) :
    (add_trash db tid).families = db.families ∧
    List.Forall₂ (fun m m' =>
        (m.telegram_id = tid →
          m' = { m with count := m.count + 1 } ∧ m.count < m'.count ∧
          (0 ≤ m.count → 0 ≤ m'.count)) ∧
        (m.telegram_id ≠ tid → m' = m))
      db.members (add_trash db tid).members := by
  refine ⟨rfl, ?_⟩
  show List.Forall₂ _ db.members (db.members.map _)
  refine forall₂_map_self _ _ _ (fun m _ => ?_)
  by_cases h : m.telegram_id = tid
  · have hb : (m.telegram_id == tid) = true := by simp [h]
    refine ⟨fun _ => ⟨?_, ?_, ?_⟩, fun hc => absurd h hc⟩ <;> (simp [hb]; try omega)
  · have hb : (m.telegram_id == tid) = false := by simp [h]
    refine ⟨fun hc => absurd hc h, fun _ => ?_⟩
    simp [hb]

/-- C9: `resetCounts` leaves the family table alone, zeroes the count of
exactly the members of the given family, and leaves every member row of
every other family entirely unchanged. -/
theorem c9_reset_counts_frame (db : DB) (fid : Int) :
    (reset_counts db fid).families = db.families ∧
    List.Forall₂ (fun m m' =>
        (m.family_id = fid → m' = { m with count := 0 }) ∧
        (m.family_id ≠ fid → m' = m))
      db.members (reset_counts db fid).members := by
  refine ⟨rfl, ?_⟩
  show List.Forall₂ _ db.members (db.members.map _)
  refine forall₂_map_self _ _ _ (fun m _ => ?_)
  by_cases h : m.family_id = fid
  · have hb : (m.family_id == fid) = true := by simp [h]
    refine ⟨fun _ => ?_, fun hc => absurd h hc⟩
    simp [hb]
  · have hb : (m.family_id == fid) = false := by simp [h]
    refine ⟨fun hc => absurd hc h, fun _ => ?_⟩
    simp [hb]

/-- The lexicographic (count, id) order realised by `ORDER BY count ASC, id ASC`. -/
def leKey (r y : MemberRow) : Prop :=
  r.count < y.count ∨ (r.count = y.count ∧ r.id ≤ y.id)

theorem leKey_refl (a : MemberRow) : leKey a a := Or.inr ⟨rfl, le_refl _⟩

theorem leKey_trans {a b c : MemberRow} (h1 : leKey a b) (h2 : leKey b c) : leKey a c := by
  unfold leKey at *
  omega

theorem least2_left (a b : MemberRow) : leKey (least2 a b) a := by
  unfold least2 leKey
  split
  · omega
  · exact Or.inr ⟨rfl, le_refl _⟩

theorem least2_right (a b : MemberRow) : leKey (least2 a b) b := by
  unfold least2 leKey
  split
  · exact Or.inr ⟨rfl, le_refl _⟩
  · omega

theorem least2_cases (a b : MemberRow) : least2 a b = a ∨ least2 a b = b := by
  unfold least2
  split
  · exact Or.inr rfl
  · exact Or.inl rfl

theorem foldl_least2_mem (xs : List MemberRow) (x : MemberRow) :
    xs.foldl least2 x = x ∨ xs.foldl least2 x ∈ xs := by
  induction xs generalizing x with
  | nil => exact Or.inl rfl
  | cons y ys ih =>
      show (ys.foldl least2 (least2 x y) = x) ∨ ys.foldl least2 (least2 x y) ∈ y :: ys
      rcases ih (least2 x y) with h | h
      · rcases least2_cases x y with h2 | h2
        · exact Or.inl (h.trans h2)
        · refine Or.inr ?_
          rw [h, h2]
          exact List.mem_cons_self y ys
      · exact Or.inr (List.mem_cons_of_mem y h)

theorem foldl_least2_le (xs : List MemberRow) (x : MemberRow) :
    leKey (xs.foldl least2 x) x ∧ ∀ y ∈ xs, leKey (xs.foldl least2 x) y := by
  induction xs generalizing x with
  | nil => exact ⟨leKey_refl x, fun y hy => absurd hy (List.not_mem_nil y)⟩
  | cons z zs ih =>
      obtain ⟨h1, h2⟩ := ih (least2 x z)
      refine ⟨leKey_trans h1 (least2_left x z), fun y hy => ?_⟩
      rcases List.mem_cons.mp hy with rfl | hy'
      · exact leKey_trans h1 (least2_right x y)
      · exact h2 y hy'

/-- C3: on a non-empty family, `leastContributor` returns a member of that
family whose count is minimal over the family, and whose surrogate id is the
least among the members sharing that minimal count. -/
theorem c3_least_contributor (db : DB) (fid : Int) (m0 : MemberRow)
    (hm0 : m0 ∈ db.members) (hf0 : m0.family_id = fid) :
    ∃ r, get_least_member db fid = some r ∧ r ∈ db.members ∧ r.family_id = fid ∧
      (∀ m ∈ db.members, m.family_id = fid → r.count ≤ m.count) ∧
      (∀ m ∈ db.members, m.family_id = fid → m.count = r.count → r.id ≤ m.id) := by
  have hmem0 : m0 ∈ db.members.filter (fun m => m.family_id == fid) := by
    refine List.mem_filter.mpr ⟨hm0, ?_⟩
    simp [hf0]
  unfold get_least_member
  cases hl : db.members.filter (fun m => m.family_id == fid) with
  | nil =>
    rw [hl] at hmem0
    exact absurd hmem0 (List.not_mem_nil m0)
  | cons x xs =>
    refine ⟨xs.foldl least2 x, rfl, ?_, ?_, ?_, ?_⟩
    · have : xs.foldl least2 x ∈ x :: xs := by
        rcases foldl_least2_mem xs x with h | h
        · rw [h]; exact List.mem_cons_self x xs
        · exact List.mem_cons_of_mem x h
      rw [← hl] at this
      exact (List.mem_filter.mp this).1
    · have : xs.foldl least2 x ∈ x :: xs := by
        rcases foldl_least2_mem xs x with h | h
        · rw [h]; exact List.mem_cons_self x xs
        · exact List.mem_cons_of_mem x h
      rw [← hl] at this
      have := (List.mem_filter.mp this).2
      simpa using this
    · intro m hm hmf
      have hmemf : m ∈ x :: xs := by
        rw [← hl]
        refine List.mem_filter.mpr ⟨hm, ?_⟩
        simp [hmf]
      have hle : leKey (xs.foldl least2 x) m := by
        rcases List.mem_cons.mp hmemf with rfl | h
        · exact (foldl_least2_le xs _).1
        · exact (foldl_least2_le xs x).2 m h
      unfold leKey at hle
      omega
    · intro m hm hmf hcnt
      have hmemf : m ∈ x :: xs := by
        rw [← hl]
        refine List.mem_filter.mpr ⟨hm, ?_⟩
        simp [hmf]
      have hle : leKey (xs.foldl least2 x) m := by
        rcases List.mem_cons.mp hmemf with rfl | h
        · exact (foldl_least2_le xs _).1
        · exact (foldl_least2_le xs x).2 m h
      unfold leKey at hle
      omega

/-- Witness for C3 at the spec's example: counts {5, 2, 2, 8} in family 1 of
`exampleDB`; the returned member is one of the two count-2 rows, specifically
the earlier-inserted one (telegram id 6, surrogate id 2, count 2). -/
theorem c3_least_contributor_witness :
    ((⟨1, 1, 5, some "a", 5, true⟩ : MemberRow) ∈ exampleDB.members ∧
      (⟨1, 1, 5, some "a", 5, true⟩ : MemberRow).family_id = 1) ∧
    (∃ r, get_least_member exampleDB 1 = some r ∧ r ∈ exampleDB.members ∧
      r.family_id = 1 ∧
      (∀ m ∈ exampleDB.members, m.family_id = 1 → r.count ≤ m.count) ∧
      (∀ m ∈ exampleDB.members, m.family_id = 1 → m.count = r.count → r.id ≤ m.id)) :=
  ⟨by decide, c3_least_contributor exampleDB 1 ⟨1, 1, 5, some "a", 5, true⟩
    (by decide) (by decide)⟩

theorem join_family_eval (db : DB) (name : String) (pw : Option String)
    (tid : Int) (un : String) (fam : FamilyRow)
    (hfind : get_family_by_name db name = some fam) :
    join_family db name pw tid un =
      if bad_password fam pw then (db, false, "Неверный пароль")
      else
        (if db.members.any (fun m => m.family_id == fam.id && m.telegram_id == tid) then db
         else { db with
           members := db.members ++ [⟨db.next_member_id, fam.id, tid, some un, 0, false⟩],
           next_member_id := db.next_member_id + 1 },
         true, "Вы успешно присоединились к семье!") := by
  unfold join_family
  rw [hfind]

theorem bad_password_some (fam : FamilyRow) (h : String) (pw : Option String)
    (hh : fam.password_hash = some h) (hne : h ≠ "") :
    bad_password fam pw = !(some h == hash_password pw) := by
  unfold bad_password py_truthy
  rw [hh]
  simp [hne]

/-- C4: joining a family whose stored password hash is set succeeds exactly
when the hash of the supplied password equals the stored hash, and on a
mismatch it changes nothing in the store and reports the bad-password
message; joining a family with no stored hash succeeds for every supplied
password, the empty string included. -/
theorem c4_join_password_gate (db : DB) (name : String) (tid : Int) (un : String)
    (fam : FamilyRow) (hfind : get_family_by_name db name = some fam) :
    (∀ h, fam.password_hash = some h → h ≠ "" →
      ∀ pw, ((join_family db name pw tid un).2.1 = true ↔ hash_password pw = some h) ∧
        (hash_password pw ≠ some h →
          (join_family db name pw tid un).1 = db ∧
          (join_family db name pw tid un).2.2 = "Неверный пароль")) ∧
    (fam.password_hash = none →
      ∀ pw, (join_family db name pw tid un).2.1 = true) := by
  constructor
  · intro h hh hne pw
    rw [join_family_eval db name pw tid un fam hfind,
        bad_password_some fam h pw hh hne]
    by_cases heq : hash_password pw = some h
    · have hb : (some h == hash_password pw) = true := by simp [heq]
      rw [hb]
      refine ⟨⟨fun _ => heq, fun _ => rfl⟩, fun habs => absurd heq habs⟩
    · have hb : (some h == hash_password pw) = false := by
        refine beq_eq_false_iff_ne.mpr ?_
        exact fun habs => heq habs.symm
      rw [hb]
      refine ⟨⟨fun hcontra => (Bool.false_ne_true hcontra).elim,
              fun hx => absurd hx heq⟩, fun _ => ⟨rfl, rfl⟩⟩
  · intro hnone pw
    have hb : bad_password fam pw = false := by
      unfold bad_password py_truthy
      rw [hnone]
      rfl
    rw [join_family_eval db name pw tid un fam hfind, hb]
    simp

/-- Witness for C4 on `exampleDB`: family "Smiths" has the hash of "x" set,
family "Open" has none. -/
theorem c4_join_password_gate_witness :
    (get_family_by_name exampleDB "Smiths" =
      some ⟨1, "Smiths", some (sha256hex "salt_v1_x")⟩) ∧
    ((∀ h, (some (sha256hex "salt_v1_x") : Option String) = some h → h ≠ "" →
      ∀ pw, ((join_family exampleDB "Smiths" pw 99 "guest").2.1 = true ↔
               hash_password pw = some h) ∧
        (hash_password pw ≠ some h →
          (join_family exampleDB "Smiths" pw 99 "guest").1 = exampleDB ∧
          (join_family exampleDB "Smiths" pw 99 "guest").2.2 = "Неверный пароль")) ∧
     ((some (sha256hex "salt_v1_x") : Option String) = none →
      ∀ pw, (join_family exampleDB "Smiths" pw 99 "guest").2.1 = true)) := by
  constructor
  · rfl
  · exact c4_join_password_gate exampleDB "Smiths" 99 "guest"
      ⟨1, "Smiths", some (sha256hex "salt_v1_x")⟩ rfl

/-- C5: from a store respecting the membership uniqueness constraint, joining
the same family twice with the same external identity (with a passing
password check) reports success both times, leaves exactly one membership
row for the pair, and the second call changes nothing and raises nothing. -/
theorem c5_join_idempotent (db : DB) (name : String) (pw : Option String)
    (tid : Int) (un un2 : String) (fam : FamilyRow)
    (hfind : get_family_by_name db name = some fam)
    (hpw : bad_password fam pw = false)
    (hcount : countMembership db fam.id tid ≤ 1) :
    ((join_family db name pw tid un).2.1 = true) ∧
    countMembership (join_family db name pw tid un).1 fam.id tid = 1 ∧
    ((join_family (join_family db name pw tid un).1 name pw tid un2).2.1 = true) ∧
    (join_family (join_family db name pw tid un).1 name pw tid un2).1 =
      (join_family db name pw tid un).1 := by
  have hev := join_family_eval db name pw tid un fam hfind
  rw [hpw] at hev
  simp only [Bool.false_eq_true, if_false] at hev
  by_cases hany : db.members.any (fun m => m.family_id == fam.id && m.telegram_id == tid) = true
  · -- the membership row already exists: both calls leave the store alone
    rw [hany] at hev
    simp only [if_true] at hev
    have h1 : countMembership db fam.id tid = 1 := by
      obtain ⟨m, hm, hp⟩ := List.any_eq_true.mp hany
      have : m ∈ db.members.filter (fun m => m.family_id == fam.id && m.telegram_id == tid) :=
        List.mem_filter.mpr ⟨hm, hp⟩
      have hpos : 0 < countMembership db fam.id tid := by
        unfold countMembership
        exact List.length_pos.mpr (List.ne_nil_of_mem this)
      omega
    rw [hev]
    have hev2 := join_family_eval db name pw tid un2 fam hfind
    rw [hpw] at hev2
    simp only [Bool.false_eq_true, if_false] at hev2
    rw [hany] at hev2
    simp only [if_true] at hev2
    rw [hev2]
    exact ⟨rfl, h1, rfl, rfl⟩
  · -- no row yet: the first call inserts it, the second is a no-op
    have hany' : db.members.any (fun m => m.family_id == fam.id && m.telegram_id == tid) = false :=
      Bool.eq_false_iff.mpr hany
    rw [hany'] at hev
    simp only [Bool.false_eq_true, if_false] at hev
    set row : MemberRow := ⟨db.next_member_id, fam.id, tid, some un, 0, false⟩ with hrow
    set db1 : DB := { db with members := db.members ++ [row],
                              next_member_id := db.next_member_id + 1 } with hdb1
    have hprow : (fun m : MemberRow => m.family_id == fam.id && m.telegram_id == tid) row = true := by
      simp [hrow]
    have hfempty : db.members.filter (fun m => m.family_id == fam.id && m.telegram_id == tid) = [] := by
      rcases hf : db.members.filter (fun m => m.family_id == fam.id && m.telegram_id == tid) with _ | ⟨m, ms⟩
      · exact hf
      · exfalso
        have hm : m ∈ db.members.filter (fun m => m.family_id == fam.id && m.telegram_id == tid) := by
          rw [hf]; exact List.mem_cons_self m ms
        obtain ⟨hmm, hmp⟩ := List.mem_filter.mp hm
        exact absurd (List.any_eq_true.mpr ⟨m, hmm, hmp⟩) hany
    have hc1 : countMembership db1 fam.id tid = 1 := by
      unfold countMembership
      rw [hdb1]
      simp only [List.filter_append, hfempty, List.nil_append]
      simp [hprow]
    have hfind1 : get_family_by_name db1 name = some fam := hfind
    have hany1 : db1.members.any (fun m => m.family_id == fam.id && m.telegram_id == tid) = true := by
      refine List.any_eq_true.mpr ⟨row, ?_, hprow⟩
      rw [hdb1]
      exact List.mem_append.mpr (Or.inr (List.mem_cons_self row []))
    have hev2 := join_family_eval db1 name pw tid un2 fam hfind1
    rw [hpw] at hev2
    simp only [Bool.false_eq_true, if_false] at hev2
    rw [hany1] at hev2
    simp only [if_true] at hev2
    rw [hev]
    rw [hev2]
    exact ⟨rfl, hc1, rfl, rfl⟩

/-- Witness for C5: user 9 joins the passwordless family "Open" twice. -/
theorem c5_join_idempotent_witness :
    (get_family_by_name exampleDB "Open" = some ⟨2, "Open", none⟩ ∧
     bad_password ⟨2, "Open", none⟩ (some "") = false ∧
     countMembership exampleDB 2 9 ≤ 1) ∧
    (((join_family exampleDB "Open" (some "") 9 "e").2.1 = true) ∧
     countMembership (join_family exampleDB "Open" (some "") 9 "e").1 2 9 = 1 ∧
     ((join_family (join_family exampleDB "Open" (some "") 9 "e").1 "Open"
        (some "") 9 "e").2.1 = true) ∧
     (join_family (join_family exampleDB "Open" (some "") 9 "e").1 "Open"
        (some "") 9 "e").1 = (join_family exampleDB "Open" (some "") 9 "e").1) := by
  refine ⟨⟨rfl, rfl, by decide⟩, ?_⟩
  exact c5_join_idempotent exampleDB "Open" (some "") 9 "e" "e"
    ⟨2, "Open", none⟩ rfl rfl (by decide)

/-- C1: on a store whose member rows all point below the family id counter,
`createFamily` leaves no partial state behind: every failing call returns the
store exactly as it was (the only failure point, the duplicate-name insert,
happens before any write, and the member insert cannot conflict because the
family id is fresh), and every successful call appends exactly the family row
and its creator-admin member row. -/
theorem c1_create_family_atomic (db : DB) (name : String) (pw : Option String)
    (t : Int) (u : String) (hwf : wf_db db = true) :
    (∀ e db', create_family db name pw t u = .error (e, db') → db' = db) ∧
    (∀ db' fid, create_family db name pw t u = .ok (db', fid) →
      fid = db.next_family_id ∧
      db'.families = db.families ++
        [⟨fid, name, if py_truthy pw then hash_password pw else none⟩] ∧
      db'.members = db.members ++ [⟨db.next_member_id, fid, t, some u, 0, true⟩]) := by
  unfold create_family
  by_cases hdup : db.families.any (fun f => f.name == name) = true
  · rw [hdup]
    simp only [if_true]
    constructor
    · intro e db' he
      have h1 := (Except.error.injEq _ _).mp he
      have h2 := congrArg Prod.snd h1
      exact h2.symm
    · intro db' fid he
      exact absurd he (by simp)
  · have hdup' : db.families.any (fun f => f.name == name) = false :=
      Bool.eq_false_iff.mpr hdup
    rw [hdup']
    simp only [Bool.false_eq_true, if_false]
    have hfresh : (db.members.any
        (fun m => m.family_id == db.next_family_id && m.telegram_id == t)) = false := by
      rcases ha : db.members.any
          (fun m => m.family_id == db.next_family_id && m.telegram_id == t) with _ | _
      · rfl
      · exfalso
        obtain ⟨m, hm, hp⟩ := List.any_eq_true.mp ha
        have hlt : m.family_id < db.next_family_id := by
          have := List.all_eq_true.mp hwf m hm
          simpa using this
        have heq : m.family_id = db.next_family_id := by
          have := (Bool.and_eq_true _ _).mp hp
          simpa using this.1
        omega
    rw [hfresh]
    simp only [Bool.false_eq_true, if_false]
    constructor
    · intro e db' he
      exact absurd he (by simp)
    · intro db' fid he
      have h1 := (Except.ok.injEq _ _).mp he
      have h2 : db' = { db with
          families := db.families ++
            [⟨db.next_family_id, name, if py_truthy pw then hash_password pw else none⟩],
          members := db.members ++ [⟨db.next_member_id, db.next_family_id, t, some u, 0, true⟩],
          next_family_id := db.next_family_id + 1,
          next_member_id := db.next_member_id + 1 } := by
        have := congrArg Prod.fst h1
        exact this.symm
      have h3 : fid = db.next_family_id := by
        have := congrArg Prod.snd h1
        exact this.symm
      subst h3
      rw [h2]
      exact ⟨rfl, rfl, rfl⟩

/-- Witness for C1: creating a family on a fresh store. -/
theorem c1_create_family_atomic_witness :
    wf_db initDB = true ∧
    ((∀ e db', create_family initDB "Smiths" (some "x") 5 "a" = .error (e, db') →
        db' = initDB) ∧
     (∀ db' fid, create_family initDB "Smiths" (some "x") 5 "a" = .ok (db', fid) →
        fid = initDB.next_family_id ∧
        db'.families = initDB.families ++
          [⟨fid, "Smiths", if py_truthy (some "x") then hash_password (some "x") else none⟩] ∧
        db'.members = initDB.members ++ [⟨initDB.next_member_id, fid, 5, some "a", 0, true⟩])) :=
  ⟨by decide, c1_create_family_atomic initDB "Smiths" (some "x") 5 "a" (by decide)⟩

theorem nonneg_map {l : List MemberRow} (f : MemberRow → MemberRow)
    (hf : ∀ m, 0 ≤ m.count → 0 ≤ (f m).count)
    (h : ∀ m ∈ l, 0 ≤ m.count) :
    ∀ m' ∈ l.map f, 0 ≤ m'.count := by
  intro m' hm'
  obtain ⟨m, hm, rfl⟩ := List.mem_map.mp hm'
  exact hf m (h m hm)

theorem nonneg_filter {l : List MemberRow} (p : MemberRow → Bool)
    (h : ∀ m ∈ l, 0 ≤ m.count) :
    ∀ m' ∈ l.filter p, 0 ≤ m'.count :=
  fun m' hm' => h m' (List.mem_of_mem_filter hm')

theorem nonneg_append_zero {l : List MemberRow} (row : MemberRow)
    (hrow : 0 ≤ row.count) (h : ∀ m ∈ l, 0 ≤ m.count) :
    ∀ m' ∈ l ++ [row], 0 ≤ m'.count := by
  intro m' hm'
  rcases List.mem_append.mp hm' with hm | hm
  · exact h m' hm
  · rw [List.mem_singleton.mp hm]
    exact hrow

theorem nonneg_add_trash {db : DB} (tid : Int)
    (h : ∀ m ∈ db.members, 0 ≤ m.count) :
    ∀ m ∈ (add_trash db tid).members, 0 ≤ m.count := by
  refine nonneg_map _ (fun m hm => ?_) h
  by_cases hc : m.telegram_id == tid
  · simp only [hc, if_true]
    show (0 : Int) ≤ m.count + 1
    omega
  · simp only [Bool.not_eq_true] at hc
    simp only [hc, Bool.false_eq_true, if_false]
    exact hm

theorem nonneg_admin_adjust {db : DB} (fid tid delta : Int)
    (h : ∀ m ∈ db.members, 0 ≤ m.count) :
    ∀ m ∈ (admin_adjust db fid tid delta).members, 0 ≤ m.count := by
  refine nonneg_map _ (fun m hm => ?_) h
  by_cases hc : m.family_id == fid && m.telegram_id == tid
  · simp only [hc, if_true]
    show (0 : Int) ≤ max 0 (m.count + delta)
    exact le_max_left 0 _
  · simp only [Bool.not_eq_true] at hc
    simp only [hc, Bool.false_eq_true, if_false]
    exact hm

theorem nonneg_set_member_count {db : DB} (tgt fid v : Int) (hv : 0 ≤ v)
    (h : ∀ m ∈ db.members, 0 ≤ m.count) :
    ∀ m ∈ (set_member_count db tgt fid v).members, 0 ≤ m.count := by
  refine nonneg_map _ (fun m hm => ?_) h
  by_cases hc : m.family_id == fid && m.telegram_id == tgt
  · simp only [hc, if_true]
    exact hv
  · simp only [Bool.not_eq_true] at hc
    simp only [hc, Bool.false_eq_true, if_false]
    exact hm

theorem nonneg_reset_counts {db : DB} (fid : Int)
    (h : ∀ m ∈ db.members, 0 ≤ m.count) :
    ∀ m ∈ (reset_counts db fid).members, 0 ≤ m.count := by
  refine nonneg_map _ (fun m hm => ?_) h
  by_cases hc : m.family_id == fid
  · simp only [hc, if_true]
    exact le_refl 0
  · simp only [Bool.not_eq_true] at hc
    simp only [hc, Bool.false_eq_true, if_false]
    exact hm

theorem nonneg_toggle_admin {db : DB} (fid tid : Int)
    (h : ∀ m ∈ db.members, 0 ≤ m.count) :
    ∀ m ∈ (toggle_admin db fid tid).members, 0 ≤ m.count := by
  unfold toggle_admin
  split
  · refine nonneg_map _ (fun m hm => ?_) h
    by_cases hc : m.family_id == fid && m.telegram_id == tid
    · simp only [hc, if_true]
      exact hm
    · simp only [Bool.not_eq_true] at hc
      simp only [hc, Bool.false_eq_true, if_false]
      exact hm
  · exact h

theorem nonneg_remove_member {db : DB} (tgt fid : Int)
    (h : ∀ m ∈ db.members, 0 ≤ m.count) :
    ∀ m ∈ (remove_member db tgt fid).members, 0 ≤ m.count :=
  nonneg_filter _ h

theorem nonneg_delete_family {db : DB} (fid : Int)
    (h : ∀ m ∈ db.members, 0 ≤ m.count) :
    ∀ m ∈ (delete_family db fid).members, 0 ≤ m.count :=
  nonneg_filter _ h

theorem create_family_members (db : DB) (name : String) (pw : Option String)
    (t : Int) (u : String) :
    (∀ e db', create_family db name pw t u = .error (e, db') →
      db'.members = db.members) ∧
    (∀ db' fid, create_family db name pw t u = .ok (db', fid) →
      db'.members = db.members ++ [⟨db.next_member_id, fid, t, some u, 0, true⟩]) := by
  unfold create_family
  by_cases hdup : db.families.any (fun f => f.name == name) = true
  · rw [hdup]
    simp only [if_true]
    constructor
    · intro e db' he
      have h1 := (Except.error.injEq _ _).mp he
      have h2 := congrArg Prod.snd h1
      exact congrArg DB.members h2.symm
    · intro db' fid he
      exact absurd he (by simp)
  · rw [Bool.eq_false_iff.mpr hdup]
    simp only [Bool.false_eq_true, if_false]
    by_cases hsnd : (db.members.any
        (fun m => m.family_id == db.next_family_id && m.telegram_id == t)) = true
    · rw [hsnd]
      simp only [if_true]
      constructor
      · intro e db' he
        have h1 := (Except.error.injEq _ _).mp he
        have h2 := congrArg Prod.snd h1
        have h3 := congrArg DB.members h2
        exact h3.symm
      · intro db' fid he
        exact absurd he (by simp)
    · rw [Bool.eq_false_iff.mpr hsnd]
      simp only [Bool.false_eq_true, if_false]
      constructor
      · intro e db' he
        exact absurd he (by simp)
      · intro db' fid he
        have h1 := (Except.ok.injEq _ _).mp he
        have h2 := congrArg Prod.fst h1
        have h3 := congrArg Prod.snd h1
        simp only at h2 h3
        rw [← h2, ← h3]

theorem nonneg_join_family {db : DB} (n : String) (pw : Option String)
    (tid : Int) (un : String) (h : ∀ m ∈ db.members, 0 ≤ m.count) :
    ∀ m ∈ (join_family db n pw tid un).1.members, 0 ≤ m.count := by
  unfold join_family
  split
  · exact h
  · split
    · exact h
    · split
      · exact h
      · exact nonneg_append_zero _ (le_refl 0) h

theorem nonneg_create_family {db : DB} (nm : String) (pw : Option String)
    (t : Int) (u : String) (h : ∀ m ∈ db.members, 0 ≤ m.count) :
    (∀ e db', create_family db nm pw t u = .error (e, db') →
      ∀ m ∈ db'.members, 0 ≤ m.count) ∧
    (∀ db' fid, create_family db nm pw t u = .ok (db', fid) →
      ∀ m ∈ db'.members, 0 ≤ m.count) := by
  constructor
  · intro e db' he
    rw [(create_family_members db nm pw t u).1 e db' he]
    exact h
  · intro db' fid he
    rw [(create_family_members db nm pw t u).2 db' fid he]
    exact nonneg_append_zero _ (le_refl 0) h

theorem text_flow_preserves_nonneg (db : DB) (ud : UserData) (uid : Int)
    (uname : String) (raw : String) (h : ∀ m ∈ db.members, 0 ≤ m.count) :
    ∀ m ∈ (text_flow db ud uid uname raw).db.members, 0 ≤ m.count := by
  unfold text_flow
  split
  · exact h
  split
  · -- create_pass
    split
    · exact h
    · split
      · rename_i heq
        exact (nonneg_create_family _ _ _ _ h).1 _ _ heq
      · rename_i heq
        exact (nonneg_create_family _ _ _ _ h).2 _ _ heq
  split
  · exact h
  split
  · -- join_pass
    split
    · exact h
    · exact nonneg_join_family _ _ _ _ h
  split
  · -- admin_set_count
    split
    · exact h
    · split
      · exact h
      · split
        · rename_i hv _ _
          exact nonneg_set_member_count _ _ _ (by omega) h
        · exact h
  split
  · -- admin_confirm_delete
    split
    · split
      · exact nonneg_delete_family _ h
      · exact h
    · exact h
  exact h

theorem cb_dispatch_preserves_nonneg (db : DB) (ud : UserData) (uid : Int)
    (a : CbAction) (h : ∀ m ∈ db.members, 0 ≤ m.count) :
    ∀ m ∈ (cb_dispatch db ud uid a).db.members, 0 ≤ m.count := by
  unfold cb_dispatch
  split
  all_goals repeat' split
  all_goals
    first
    | exact h
    | exact nonneg_add_trash _ h
    | exact nonneg_admin_adjust _ _ _ h
    | exact nonneg_remove_member _ _ h
    | exact nonneg_toggle_admin _ _ h
    | exact nonneg_reset_counts _ h

theorem callback_router_preserves_nonneg (db : DB) (ud : UserData) (uid : Int)
    (data : String) (h : ∀ m ∈ db.members, 0 ≤ m.count) :
    ∀ m ∈ (callback_router db ud uid data).db.members, 0 ≤ m.count :=
  cb_dispatch_preserves_nonneg db ud uid (parse_cb data) h

theorem handle_preserves_nonneg (db : DB) (ud : UserData) (uid : Int)
    (uname : String) (ev : Event) (h : ∀ m ∈ db.members, 0 ≤ m.count) :
    ∀ m ∈ (handle db ud uid uname ev).db.members, 0 ≤ m.count := by
  cases ev with
  | cb data => exact callback_router_preserves_nonneg db ud uid data h
  | msg raw => exact text_flow_preserves_nonneg db ud uid uname raw h

theorem nonneg_db_iff (db : DB) :
    nonneg_db db = true ↔ ∀ m ∈ db.members, 0 ≤ m.count := by
  unfold nonneg_db
  rw [List.all_eq_true]
  constructor
  · intro hall m hm
    exact of_decide_eq_true (hall m hm)
  · intro hall m hm
    exact decide_eq_true (hall m hm)

/-- C6: on every store reachable by any sequence of bot updates every
member's count is non-negative, and the admin −1 adjustment clamps at zero:
the targeted row's new count is `max 0 (count − 1)` (so a row at 0 stays at
0 and no row ever goes negative), while every other row is untouched. -/
theorem c6_counts_nonneg_and_decrement_clamps :
    (∀ db, Reachable db → nonneg_db db = true) ∧
    (∀ (db : DB) (fid tid : Int),
      List.Forall₂ (fun m m' =>
          (m.family_id = fid ∧ m.telegram_id = tid →
            m'.count = max 0 (m.count + (-1)) ∧ 0 ≤ m'.count ∧
            (m.count = 0 → m'.count = 0)) ∧
          (¬(m.family_id = fid ∧ m.telegram_id = tid) → m' = m))
        db.members (admin_adjust db fid tid (-1)).members) := by
  constructor
  · intro db hr
    induction hr with
    | init => decide
    | step db' ud uid uname ev _ ih =>
        exact (nonneg_db_iff _).mpr
          (handle_preserves_nonneg db' ud uid uname ev ((nonneg_db_iff _).mp ih))
  · intro db fid tid
    show List.Forall₂ _ db.members (db.members.map _)
    refine forall₂_map_self _ _ _ (fun m _ => ?_)
    by_cases hc : m.family_id = fid ∧ m.telegram_id = tid
    · have hb : (m.family_id == fid && m.telegram_id == tid) = true := by
        simp [hc.1, hc.2]
      refine ⟨fun _ => ⟨?_, ?_, ?_⟩, fun hcon => absurd hc hcon⟩ <;> (simp [hb]; try omega)
    · have hb : (m.family_id == fid && m.telegram_id == tid) = false := by
        rcases hbb : (m.family_id == fid && m.telegram_id == tid) with _ | _
        · rfl
        · exfalso
          have := (Bool.and_eq_true _ _).mp hbb
          exact hc ⟨by simpa using this.1, by simpa using this.2⟩
      refine ⟨fun hcon => absurd hcon hc, fun _ => ?_⟩
      simp [hb]

/-- Witness for C6: the non-negativity invariant at a concretely reached
store (a create-family button press from the fresh store), and the clamp on
`exampleDB` member 9 of family 2, whose count is 0. -/
theorem c6_counts_nonneg_and_decrement_clamps_witness :
    nonneg_db (handle initDB {} 7 "u" (.cb "create_family")).db = true ∧
    List.Forall₂ (fun m m' =>
        (m.family_id = 2 ∧ m.telegram_id = 9 →
          m'.count = max 0 (m.count + (-1)) ∧ 0 ≤ m'.count ∧
          (m.count = 0 → m'.count = 0)) ∧
        (¬(m.family_id = 2 ∧ m.telegram_id = 9) → m' = m))
      exampleDB.members (admin_adjust exampleDB 2 9 (-1)).members :=
  ⟨c6_counts_nonneg_and_decrement_clamps.1 _
      (Reachable.step initDB {} 7 "u" (.cb "create_family") Reachable.init),
   c6_counts_nonneg_and_decrement_clamps.2 exampleDB 2 9⟩

/-- Counterexample to C7 as literally stated: the handler strips the reply
before comparing (`text = (msg.text or "").strip()`), so the reply
`" DELETE"` — which is not exactly the literal `"DELETE"` — still deletes
the family. -/
theorem c7_confirm_delete_counterexample :
    (" DELETE" : String) ≠ "DELETE" ∧
    (text_flow ⟨[⟨1, "Smiths", none⟩], [⟨1, 1, 5, some "a", 0, true⟩], 2, 2⟩
        ⟨some "admin_confirm_delete", none, none, none, none, some 1⟩
        5 "a" " DELETE").db =
      ⟨[], [], 2, 2⟩ := by
  decide

/-- C7 (amended: the comparison is against the whitespace-stripped reply):
in the `admin_confirm_delete` flow the family and, by cascade, all its
member rows are deleted exactly when the stripped reply equals `"DELETE"`;
any other reply leaves the store unchanged; in both cases the flow returns
to none and nothing is raised. -/
theorem c7_confirm_delete (db : DB) (ud : UserData) (uid : Int) (un : String)
    (fid : Int) (raw : String)
    (hflow : ud.flow = some "admin_confirm_delete")
    (hfid : ud.admin_delete_fid = some fid) :
    ((text_flow db ud uid un raw).db =
        if (py_strip raw) == "DELETE" then delete_family db fid else db) ∧
    ((py_strip raw) = "DELETE" →
      (∀ f ∈ (text_flow db ud uid un raw).db.families, f.id ≠ fid) ∧
      (∀ m ∈ (text_flow db ud uid un raw).db.members, m.family_id ≠ fid) ∧
      (∀ f ∈ db.families, f.id ≠ fid → f ∈ (text_flow db ud uid un raw).db.families) ∧
      (∀ m ∈ db.members, m.family_id ≠ fid → m ∈ (text_flow db ud uid un raw).db.members)) ∧
    ((py_strip raw) ≠ "DELETE" → (text_flow db ud uid un raw).db = db) ∧
    (text_flow db ud uid un raw).user_data.flow = none ∧
    (text_flow db ud uid un raw).raised = false := by
  have hred : text_flow db ud uid un raw =
      ⟨(if (py_strip raw) == "DELETE" then delete_family db fid else db),
       { ud with admin_delete_fid := none, flow := none },
       [if (py_strip raw) == "DELETE" then "Семья удалена." else "Подтверждение не пройдено."],
       false⟩ := by
    unfold text_flow
    rw [hflow, hfid]
    rfl
  rw [hred]
  refine ⟨rfl, ?_, ?_, rfl, rfl⟩
  · intro hD
    have hb : ((py_strip raw) == "DELETE") = true := by simp [hD]
    simp only [hb, if_true]
    refine ⟨?_, ?_, ?_, ?_⟩
    · intro f hf
      have := (List.mem_filter.mp hf).2
      simpa using this
    · intro m hm
      have := (List.mem_filter.mp hm).2
      simpa using this
    · intro f hf hne
      refine List.mem_filter.mpr ⟨hf, ?_⟩
      simpa using hne
    · intro m hm hne
      refine List.mem_filter.mpr ⟨hm, ?_⟩
      simpa using hne
  · intro hD
    have hb : ((py_strip raw) == "DELETE") = false := by
      refine beq_eq_false_iff_ne.mpr hD
    simp only [hb, Bool.false_eq_true, if_false]

/-- Witness for the amended C7: a non-DELETE reply aborts on a concrete
store. -/
theorem c7_confirm_delete_witness :
    ((⟨some "admin_confirm_delete", none, none, none, none, some 1⟩ : UserData).flow =
        some "admin_confirm_delete" ∧
     (⟨some "admin_confirm_delete", none, none, none, none, some 1⟩ : UserData).admin_delete_fid =
        some 1) ∧
    (((text_flow ⟨[⟨1, "Smiths", none⟩], [⟨1, 1, 5, some "a", 0, true⟩], 2, 2⟩
        ⟨some "admin_confirm_delete", none, none, none, none, some 1⟩ 5 "a" "no").db =
        if (py_strip "no") == "DELETE"
        then delete_family ⟨[⟨1, "Smiths", none⟩], [⟨1, 1, 5, some "a", 0, true⟩], 2, 2⟩ 1
        else ⟨[⟨1, "Smiths", none⟩], [⟨1, 1, 5, some "a", 0, true⟩], 2, 2⟩) ∧
     ((py_strip "no") = "DELETE" →
       (∀ f ∈ (text_flow ⟨[⟨1, "Smiths", none⟩], [⟨1, 1, 5, some "a", 0, true⟩], 2, 2⟩
          ⟨some "admin_confirm_delete", none, none, none, none, some 1⟩ 5 "a" "no").db.families,
          f.id ≠ 1) ∧
       (∀ m ∈ (text_flow ⟨[⟨1, "Smiths", none⟩], [⟨1, 1, 5, some "a", 0, true⟩], 2, 2⟩
          ⟨some "admin_confirm_delete", none, none, none, none, some 1⟩ 5 "a" "no").db.members,
          m.family_id ≠ 1) ∧
       (∀ f ∈ (⟨[⟨1, "Smiths", none⟩], [⟨1, 1, 5, some "a", 0, true⟩], 2, 2⟩ : DB).families,
          f.id ≠ 1 →
          f ∈ (text_flow ⟨[⟨1, "Smiths", none⟩], [⟨1, 1, 5, some "a", 0, true⟩], 2, 2⟩
            ⟨some "admin_confirm_delete", none, none, none, none, some 1⟩ 5 "a" "no").db.families) ∧
       (∀ m ∈ (⟨[⟨1, "Smiths", none⟩], [⟨1, 1, 5, some "a", 0, true⟩], 2, 2⟩ : DB).members,
          m.family_id ≠ 1 →
          m ∈ (text_flow ⟨[⟨1, "Smiths", none⟩], [⟨1, 1, 5, some "a", 0, true⟩], 2, 2⟩
            ⟨some "admin_confirm_delete", none, none, none, none, some 1⟩ 5 "a" "no").db.members)) ∧
     ((py_strip "no") ≠ "DELETE" →
       (text_flow ⟨[⟨1, "Smiths", none⟩], [⟨1, 1, 5, some "a", 0, true⟩], 2, 2⟩
          ⟨some "admin_confirm_delete", none, none, none, none, some 1⟩ 5 "a" "no").db =
        ⟨[⟨1, "Smiths", none⟩], [⟨1, 1, 5, some "a", 0, true⟩], 2, 2⟩) ∧
     (text_flow ⟨[⟨1, "Smiths", none⟩], [⟨1, 1, 5, some "a", 0, true⟩], 2, 2⟩
        ⟨some "admin_confirm_delete", none, none, none, none, some 1⟩ 5 "a" "no").user_data.flow =
        none ∧
     (text_flow ⟨[⟨1, "Smiths", none⟩], [⟨1, 1, 5, some "a", 0, true⟩], 2, 2⟩
        ⟨some "admin_confirm_delete", none, none, none, none, some 1⟩ 5 "a" "no").raised = false) :=
  ⟨⟨rfl, rfl⟩,
   c7_confirm_delete ⟨[⟨1, "Smiths", none⟩], [⟨1, 1, 5, some "a", 0, true⟩], 2, 2⟩
     ⟨some "admin_confirm_delete", none, none, none, none, some 1⟩ 5 "a" 1 "no" rfl rfl⟩

/-- C8: the admin sub-action tokens are dispatched without consulting the
caller at all: the whole handler result is identical for any two calling
users (admin or not, member or not), and for the mutating sub-actions the
store mutation is exactly the corresponding registry update, with no admin
check guarding it. -/
theorem c8_admin_subactions_skip_authorization (db : DB) (ud : UserData)
    (u1 u2 : Int) (data : String)
    (hsub : is_admin_sub (parse_cb data) = true) :
    (callback_router db ud u1 data = callback_router db ud u2 data) ∧
    (∀ fidS tidS fid tid, parse_cb data = .adminIncDec "admin_dec" fidS tidS →
      pyInt? fidS = some fid → pyInt? tidS = some tid →
      (callback_router db ud u1 data).db = admin_adjust db fid tid (-1)) ∧
    (∀ fidS tidS fid tid, parse_cb data = .adminIncDec "admin_inc" fidS tidS →
      pyInt? fidS = some fid → pyInt? tidS = some tid →
      (callback_router db ud u1 data).db = admin_adjust db fid tid 1) ∧
    (∀ fidS fid, parse_cb data = .adminReset fidS → pyInt? fidS = some fid →
      (callback_router db ud u1 data).db = reset_counts db fid) ∧
    (∀ fidS tidS fid tid, parse_cb data = .adminRemove fidS tidS →
      pyInt? fidS = some fid → pyInt? tidS = some tid →
      (callback_router db ud u1 data).db = remove_member db tid fid) ∧
    (∀ fidS tidS fid tid, parse_cb data = .adminToggle fidS tidS →
      pyInt? fidS = some fid → pyInt? tidS = some tid →
      (callback_router db ud u1 data).db = toggle_admin db fid tid) := by
  unfold callback_router
  cases ha : parse_cb data with
  | createFamilyBtn => rw [ha] at hsub; simp [is_admin_sub] at hsub
  | joinFamilyBtn => rw [ha] at hsub; simp [is_admin_sub] at hsub
  | trashOut => rw [ha] at hsub; simp [is_admin_sub] at hsub
  | statsBtn => rw [ha] at hsub; simp [is_admin_sub] at hsub
  | adminOpen fidS => rw [ha] at hsub; simp [is_admin_sub] at hsub
  | backMain => rw [ha] at hsub; simp [is_admin_sub] at hsub
  | unknownOp => rw [ha] at hsub; simp [is_admin_sub] at hsub
  | malformed => rw [ha] at hsub; simp [is_admin_sub] at hsub
  | adminList fidS =>
      refine ⟨rfl, ?_, ?_, ?_, ?_, ?_⟩ <;> intro _ _ <;> intros <;>
        simp_all
  | adminMember fidS tidS =>
      refine ⟨rfl, ?_, ?_, ?_, ?_, ?_⟩ <;> intro _ _ <;> intros <;>
        simp_all
  | adminSet fidS tidS =>
      refine ⟨rfl, ?_, ?_, ?_, ?_, ?_⟩ <;> intro _ _ <;> intros <;>
        simp_all
  | adminDelete fidS =>
      refine ⟨rfl, ?_, ?_, ?_, ?_, ?_⟩ <;> intro _ _ <;> intros <;>
        simp_all
  | adminIncDec op fS tS =>
      refine ⟨rfl, ?_, ?_, ?_, ?_, ?_⟩
      · intro fidS tidS fid tid hpc hf ht
        rw [hpc]
        simp only [cb_dispatch, hf, ht]
        try rfl
      · intro fidS tidS fid tid hpc hf ht
        rw [hpc]
        simp only [cb_dispatch, hf, ht]
        try rfl
      · intro fidS fid hpc hf
        simp at hpc
      · intro fidS tidS fid tid hpc hf ht
        simp at hpc
      · intro fidS tidS fid tid hpc hf ht
        simp at hpc
  | adminReset fS =>
      refine ⟨rfl, ?_, ?_, ?_, ?_, ?_⟩
      · intro fidS tidS fid tid hpc hf ht
        simp at hpc
      · intro fidS tidS fid tid hpc hf ht
        simp at hpc
      · intro fidS fid hpc hf
        rw [hpc]
        simp only [cb_dispatch, hf]
        try rfl
      · intro fidS tidS fid tid hpc hf ht
        simp at hpc
      · intro fidS tidS fid tid hpc hf ht
        simp at hpc
  | adminRemove fS tS =>
      refine ⟨rfl, ?_, ?_, ?_, ?_, ?_⟩
      · intro fidS tidS fid tid hpc hf ht
        simp at hpc
      · intro fidS tidS fid tid hpc hf ht
        simp at hpc
      · intro fidS fid hpc hf
        simp at hpc
      · intro fidS tidS fid tid hpc hf ht
        rw [hpc]
        simp only [cb_dispatch, hf, ht]
        try rfl
      · intro fidS tidS fid tid hpc hf ht
        simp at hpc
  | adminToggle fS tS =>
      refine ⟨rfl, ?_, ?_, ?_, ?_, ?_⟩
      · intro fidS tidS fid tid hpc hf ht
        simp at hpc
      · intro fidS tidS fid tid hpc hf ht
        simp at hpc
      · intro fidS fid hpc hf
        simp at hpc
      · intro fidS tidS fid tid hpc hf ht
        simp at hpc
      · intro fidS tidS fid tid hpc hf ht
        rw [hpc]
        simp only [cb_dispatch, hf, ht]
        try rfl

/-- Witness for C8: user 5 is the admin of family 1 in `exampleDB` and user
999 is not even a member, yet `admin_reset|1` behaves identically for both
and resets the family. -/
theorem c8_admin_subactions_skip_authorization_witness :
    is_admin_sub (parse_cb "admin_reset|1") = true ∧
    (callback_router exampleDB {} 5 "admin_reset|1" =
      callback_router exampleDB {} 999 "admin_reset|1") ∧
    (callback_router exampleDB {} 999 "admin_reset|1").db = reset_counts exampleDB 1 :=
  ⟨by decide,
   (c8_admin_subactions_skip_authorization exampleDB {} 5 999 "admin_reset|1" (by decide)).1,
   (c8_admin_subactions_skip_authorization exampleDB {} 999 5 "admin_reset|1" (by decide)).2.2.2.1
     "1" 1 (by decide) (by decide)⟩

/-- C10: in the join-password step the handler forwards the empty reply as
the empty string (not as an absent password), which is hashed; against a
family whose stored hash is set — stored hashes are salted digests of
non-empty creation passwords, never the digest of the empty string — the
check fails with the bad-password reply and no member row is inserted.  The
last conjunct is the creation half: a family created with an empty password
stores no hash at all. -/
theorem c10_empty_join_password_fails (db : DB) (ud : UserData) (uid : Int)
    (un : String) (name : String) (fam : FamilyRow) (h : String)
    (hflow : ud.flow = some "join_pass")
    (hname : ud.join_family_name = some name)
    (hfind : get_family_by_name db name = some fam)
    (hhash : fam.password_hash = some h)
    (hne : h ≠ sha256hex "salt_v1_") (hnz : h ≠ "") :
    ((text_flow db ud uid un "").db = db ∧
     (text_flow db ud uid un "").replies = ["Неверный пароль"] ∧
     (text_flow db ud uid un "").user_data = emptyUD) ∧
    hash_password (some "") = some (sha256hex "salt_v1_") ∧
    (∀ (db2 : DB) (nm : String) (t : Int) (u2 : String) (db' : DB) (fid : Int),
      create_family db2 nm (some "") t u2 = .ok (db', fid) →
      ∀ f ∈ db'.families, f.name = nm → f.password_hash = none) := by
  have hbeq : (some h == hash_password (some "")) = false := by
    refine beq_eq_false_iff_ne.mpr ?_
    intro habs
    apply hne
    have hh : h = sha256hex ("salt_v1_" ++ "") := by
      injection habs
    rw [hh]
    rfl
  have hne2 : (h == "") = false := beq_eq_false_iff_ne.mpr hnz
  have hbad : bad_password fam (some "") = true := by
    unfold bad_password
    rw [hhash]
    show ((!(h == "")) && (!(some h == hash_password (some "")))) = true
    rw [hne2, hbeq]
    rfl
  have hjoin : join_family db name (some "") uid un = (db, false, "Неверный пароль") := by
    rw [join_family_eval db name (some "") uid un fam hfind, hbad]
    rfl
  have hred : text_flow db ud uid un "" =
      ⟨(join_family db name (some "") uid un).1, emptyUD,
       [(join_family db name (some "") uid un).2.2], false⟩ := by
    unfold text_flow
    rw [hflow, hname]
    rfl
  refine ⟨?_, rfl, ?_⟩
  · rw [hred, hjoin]
    exact ⟨rfl, rfl, rfl⟩
  · intro db2 nm t u2 db' fid hok f hfmem hfname
    unfold create_family at hok
    by_cases hdup : db2.families.any (fun fa => fa.name == nm) = true
    · rw [hdup] at hok
      simp at hok
    · rw [Bool.eq_false_iff.mpr hdup] at hok
      simp only [Bool.false_eq_true, if_false] at hok
      by_cases hc2 : (db2.members.any
          (fun m => m.family_id == db2.next_family_id && m.telegram_id == t)) = true
      · rw [hc2] at hok
        simp at hok
      · rw [Bool.eq_false_iff.mpr hc2] at hok
        simp only [Bool.false_eq_true, if_false] at hok
        have h1 := (Except.ok.injEq _ _).mp hok
        have hdb := congrArg Prod.fst h1
        simp only at hdb
        rw [← hdb] at hfmem
        rcases List.mem_append.mp hfmem with hold | hnew
        · exfalso
          apply hdup
          refine List.any_eq_true.mpr ⟨f, hold, ?_⟩
          simp [hfname]
        · rw [List.mem_singleton.mp hnew]
          rfl

set_option maxRecDepth 40000 in
/-- Witness for C10: family "Smiths" of `exampleDB` stores the hash of "x";
the hypotheses that this hash differs from the hash of the empty password
and from the empty string are checked by evaluating SHA-256. -/
theorem c10_empty_join_password_fails_witness :
    ((⟨some "join_pass", none, some "Smiths", none, none, none⟩ : UserData).flow =
        some "join_pass" ∧
     (⟨some "join_pass", none, some "Smiths", none, none, none⟩ : UserData).join_family_name =
        some "Smiths" ∧
     get_family_by_name exampleDB "Smiths" =
        some ⟨1, "Smiths", some (sha256hex "salt_v1_x")⟩ ∧
     sha256hex "salt_v1_x" ≠ sha256hex "salt_v1_" ∧
     sha256hex "salt_v1_x" ≠ "") ∧
    (((text_flow exampleDB ⟨some "join_pass", none, some "Smiths", none, none, none⟩
        999 "guest" "").db = exampleDB ∧
      (text_flow exampleDB ⟨some "join_pass", none, some "Smiths", none, none, none⟩
        999 "guest" "").replies = ["Неверный пароль"] ∧
      (text_flow exampleDB ⟨some "join_pass", none, some "Smiths", none, none, none⟩
        999 "guest" "").user_data = emptyUD) ∧
     hash_password (some "") = some (sha256hex "salt_v1_") ∧
     (∀ (db2 : DB) (nm : String) (t : Int) (u2 : String) (db' : DB) (fid : Int),
       create_family db2 nm (some "") t u2 = .ok (db', fid) →
       ∀ f ∈ db'.families, f.name = nm → f.password_hash = none)) :=
  ⟨⟨rfl, rfl, rfl, by decide, by decide⟩,
   c10_empty_join_password_fails exampleDB
     ⟨some "join_pass", none, some "Smiths", none, none, none⟩ 999 "guest" "Smiths"
     ⟨1, "Smiths", some (sha256hex "salt_v1_x")⟩ (sha256hex "salt_v1_x")
     rfl rfl rfl rfl (by decide) (by decide)⟩

end TrashBot
